import Mathlib

/-
A shallow embedding of the schema-diffing core of the migu repository
(src/migu.go) and proofs about it.

Modelling conventions:
* Go strings are Lean `String`, Go slices are Lean `List`, Go `uint64` sizes
  are `Nat` (no arithmetic on sizes is performed, only equality tests).
* A Go `map[K]V` is an association list `List (K × V)` built with Go's
  assignment semantics (`assocSet`, which overwrites the entry in place, so
  keys stay unique) and read with `assocGet`.  Where the Go code ranges over
  a map (index emission, the final DROP TABLE loop) the iteration order is
  unspecified in Go; the model fixes insertion order.  Every property proved
  below is insensitive to that order (membership / absence / single-entry
  maps), as noted at each theorem.
* A nilable `*field` pointer is `Option field`.
* The live catalog enters `Diff` as raw `columnSchema` records that the code
  projects to `field` values one column at a time (`c.fieldAST()` followed by
  `newField`), independently of the loop state.  The model takes the live
  catalog already projected, as `List (String × List field)`; the claims and
  the spec (§4.3–§4.5) are all stated at the level of projected FieldSpecs.
* The dialect adapter lives outside src/ (package dialect); it is modelled
  from the spec as the structure `Dialect` below.
-/

/-- One column of a table, desired or observed — Go struct `field`
(src/migu.go lines 210-222).  Field names follow the Go struct
(capitalisation lowered; `Type` is a reserved word in Lean). -/
structure field where
  name : String
  type : String
  column : String
  comment : String
  rawIndexes : List String
  unique : Bool
  primaryKey : Bool
  autoIncrement : Bool
  ignore : Bool
  default : String
  size : Nat
  deriving Repr, DecidableEq

/-- The Go zero value `field{}`, produced by `&field{}` in `makeIndexMap`. -/
def field.zero : field :=
  ⟨"", "", "", "", [], false, false, false, false, "", 0⟩

/-- A table: ordered fields plus a raw table-option suffix — Go struct
`table` (src/migu.go lines 200-203). -/
structure table where
  fields : List field
  option : String
  deriving Repr, DecidableEq

/-- A named index under construction — Go struct `index`
(src/migu.go lines 205-208). -/
structure index where
  Columns : List String
  Unique : Bool
  deriving Repr, DecidableEq

/-- The classes of interchangeable type spellings — the literal list from
the initializer of `sameTypeMap` (src/migu.go lines 27-48). -/
def sameTypeClasses : List (List String) :=
  [ ["*int8", "*bool", "sql.NullBool"],
    ["int8", "bool"],
    ["*uint", "*uint32"],
    ["uint", "uint32"],
    ["*int", "*int32"],
    ["int", "int32"],
    ["*int64", "sql.NullInt64"],
    ["*string", "sql.NullString"],
    ["*float32", "*float64", "sql.NullFloat64"],
    ["float32", "float64"] ]

/-- Go map assignment `m[k] = v`: overwrite the existing entry in place, or
append a new one.  Keys stay unique. -/
def assocSet {α : Type} : List (String × α) → String → α → List (String × α)
  | [], k, v => [(k, v)]
  | p :: rest, k, v =>
      if p.fst == k then (k, v) :: rest else p :: assocSet rest k v

/-- Go map read `m[k]` returning `none` for a missing key. -/
def assocGet {α : Type} : List (String × α) → String → Option α
  | [], _ => none
  | p :: rest, k => if p.fst == k then some p.snd else assocGet rest k

/-- Go map deletion `delete(m, k)`. -/
def assocDelete {α : Type} (m : List (String × α)) (k : String) : List (String × α) :=
  m.filter (fun p => p.fst != k)

/-- `sameTypeMap`: each token of each class mapped to its whole class
(src/migu.go lines 28-47, the double loop `m[t] = types`). -/
def sameTypeMap : List (String × List String) :=
  sameTypeClasses.foldl (fun m types => types.foldl (fun m t => assocSet m t types) m) []

/-- `inStrings` (helper used by `isSameType` and `makeIndexMap`): linear
membership test. -/
def inStrings (l : List String) (s : String) : Bool :=
  l.contains s

/-- `isSameType` (src/migu.go lines 731-733): equal tokens, or the second
token occurs in the first token's registered class (a missing key yields the
nil slice, on which `inStrings` is false). -/
def isSameType (t1 t2 : String) : Bool :=
  t1 == t2 || inStrings ((assocGet sameTypeMap t1).getD []) t2

/-- `(*field).Indexes` (src/migu.go lines 248-257): raw index names with the
empty token replaced by the column name. -/
def field.Indexes (f : field) : List String :=
  f.rawIndexes.map (fun i => if i == "" then f.column else i)

/-- `(*field).UniqueIndexes` (src/migu.go lines 259-264). -/
def field.UniqueIndexes (f : field) : List String :=
  if !f.unique then [] else [f.column]

/-- `(*field).IsDifferent` (src/migu.go lines 266-278), on nilable
receivers. -/
def IsDifferent : Option field → Option field → Bool
  | none, none => false
  | none, some _ => true
  | some _, none => true
  | some f, some another =>
      !isSameType f.type another.type ||
      f.default != another.default ||
      f.size != another.size ||
      f.column != another.column ||
      f.comment != another.comment ||
      f.autoIncrement != another.autoIncrement ||
      f.primaryKey != another.primaryKey

/-- The column-keyed map the Go code builds from a field list
(`m[f.Column] = f` in declaration order; a later field overwrites an
earlier one with the same column). -/
def fieldTable (fs : List field) : List (String × field) :=
  fs.foldl (fun m f => assocSet m f.column f) []

/-- Go struct `modifiedField` (src/migu.go lines 330-333). -/
structure modifiedField where
  old : Option field
  new : Option field
  deriving Repr, DecidableEq

def modifiedField.IsAdded (m : modifiedField) : Bool :=
  m.old.isNone && m.new.isSome

def modifiedField.IsDropped (m : modifiedField) : Bool :=
  m.old.isSome && m.new.isNone

def modifiedField.IsModified (m : modifiedField) : Bool :=
  m.old.isSome && m.new.isSome

/-- `makeAlterTableFields` (src/migu.go lines 347-374): new fields that are
absent or different first (in declaration order of `newFields`), then old
fields with no new counterpart (in declaration order of `oldFields`). -/
def makeAlterTableFields (oldFields newFields : List field) : List modifiedField :=
  let oldTable := fieldTable oldFields
  let newTable := fieldTable newFields
  let fields := newFields.foldl (fun fs f =>
    let oldF := assocGet oldTable f.column
    if IsDifferent oldF (some f) then fs ++ [⟨oldF, some f⟩] else fs) []
  oldFields.foldl (fun fs f =>
    if (assocGet newTable f.column).isNone then fs ++ [⟨some f, none⟩] else fs) fields

/-- The map-entry update used by `makeIndexMap`: create the entry with the
given unique flag if absent (the flag of an existing entry is kept), then
append the column. -/
def indexMapAdd : List (String × index) → String → Bool → String → List (String × index)
  | [], name, uniq, col => [(name, ⟨[col], uniq⟩)]
  | (n, idx) :: rest, name, uniq, col =>
      if n == name then (n, ⟨idx.Columns ++ [col], idx.Unique⟩) :: rest
      else (n, idx) :: indexMapAdd rest name uniq col

/-- `makeIndexMap` (src/migu.go lines 280-328): walk the new fields; compare
each one's index names and unique-index names with those of the matching old
field (the zero field when absent) and accumulate add/drop index
descriptors.  Returns `(addIndexMap, dropIndexMap)`. -/
def makeIndexMap (oldFields newFields : List field) :
    List (String × index) × List (String × index) :=
  let m := fieldTable oldFields
  newFields.foldl (fun maps f =>
    let addM := maps.fst
    let dropM := maps.snd
    let oldField := (assocGet m f.column).getD field.zero
    let oindexes := oldField.Indexes
    let nindexes := f.Indexes
    let oldUniqueIndexes := oldField.UniqueIndexes
    let newUniqueIndexes := f.UniqueIndexes
    let dropM := oindexes.foldl (fun dm name =>
      if !inStrings nindexes name then indexMapAdd dm name false oldField.column else dm) dropM
    let dropM := oldUniqueIndexes.foldl (fun dm name =>
      if !inStrings newUniqueIndexes name then indexMapAdd dm name true oldField.column else dm) dropM
    let addM := nindexes.foldl (fun am name =>
      if !inStrings oindexes name then indexMapAdd am name false f.column else am) addM
    let addM := newUniqueIndexes.foldl (fun am name =>
      if !inStrings oldUniqueIndexes name then indexMapAdd am name true f.column else am) addM
    (addM, dropM)) ([], [])

/-- Modelled from the spec: the dialect adapter (§6), which lives outside
src/ in package dialect.  `quote` quotes an identifier, `quoteString` a
string literal, `columnType` renders a column type from the type token, size
and auto-increment flag and reports nullability, `autoIncrement` is the
dialect's auto-increment keyword. -/
structure Dialect where
  quote : String → String
  quoteString : String → String
  columnType : String → Nat → Bool → String × Bool
  autoIncrement : String

/-- Modelled from the spec: the MySQL-flavoured dialect (`dialect.MySQL`,
outside src/).  Identifiers are backquoted, string literals single-quoted,
pointer / sql.Null wrapper type tokens render as nullable, `string` types
render as VARCHAR of the given size, and the auto-increment keyword is
AUTO_INCREMENT.  Only the type tokens exercised by the concrete scenarios
below are enumerated; other tokens fall through unchanged (no claim depends
on them). -/
def MySQL : Dialect where
  quote n := "`" ++ n ++ "`"
  quoteString s := "'" ++ s ++ "'"
  columnType t size _ :=
    match t with
    | "string" => ("VARCHAR(" ++ toString size ++ ")", false)
    | "*string" => ("VARCHAR(" ++ toString size ++ ")", true)
    | "sql.NullString" => ("VARCHAR(" ++ toString size ++ ")", true)
    | "int" => ("INT", false)
    | "int32" => ("INT", false)
    | "*int" => ("INT", true)
    | "*int32" => ("INT", true)
    | "int8" => ("TINYINT", false)
    | "bool" => ("TINYINT", false)
    | "*int8" => ("TINYINT", true)
    | "*bool" => ("TINYINT", true)
    | "sql.NullBool" => ("TINYINT", true)
    | _ => (t, false)
  autoIncrement := "AUTO_INCREMENT"

/-- `formatDefault` (src/migu.go lines 526-533): only the exact token
`string` gets its default dialect-quoted. -/
def formatDefault (d : Dialect) (t dflt : String) : String :=
  match t with
  | "string" => d.quoteString dflt
  | _ => dflt

/-- `columnSQL` (src/migu.go lines 614-633): quoted column name, rendered
type, then NOT NULL / DEFAULT / PRIMARY KEY / auto-increment / COMMENT
clauses, joined with spaces. -/
def columnSQL (d : Dialect) (f : field) : String :=
  let ct := d.columnType f.type f.size f.autoIncrement
  let column := [d.quote f.column, ct.fst]
  let column := if !ct.snd then column ++ ["NOT NULL"] else column
  let column := if f.default != "" then
    column ++ ["DEFAULT", formatDefault d f.type f.default] else column
  let column := if f.primaryKey then column ++ ["PRIMARY KEY"] else column
  let column := if f.autoIncrement && d.autoIncrement != "" then
    column ++ [d.autoIncrement] else column
  let column := if f.comment != "" then
    column ++ ["COMMENT", d.quoteString f.comment] else column
  String.intercalate " " column

/-- One arm of the switch at src/migu.go lines 140-152: the statement(s) a
classified field change contributes, in the IsAdded / IsDropped /
IsModified case order of the Go switch (an impossible nil/nil entry falls
through the switch and contributes nothing). -/
def alterStatement (d : Dialect) (tableName : String) (m : modifiedField) : List String :=
  match m.old, m.new with
  | none, some n => ["ALTER TABLE " ++ tableName ++ " ADD " ++ d.quote n.column]
  | some o, none => ["ALTER TABLE " ++ tableName ++ " DROP " ++ d.quote o.column]
  | some o, some n =>
      let specs : List String :=
        if o.primaryKey != n.primaryKey && !n.primaryKey then ["DROP PRIMARY KEY"] else []
      let specs := specs ++ ["MODIFY " ++ columnSQL d n]
      ["ALTER TABLE " ++ tableName ++ " " ++ String.intercalate ", " specs]
  | none, none => []

/-- The dropped-column registration loop (src/migu.go lines 154-158): the
columns of the entries classified as Dropped. -/
def droppedOf (fields : List modifiedField) : List String :=
  fields.filterMap (fun m =>
    match m.old, m.new with
    | some o, none => some o.column
    | _, _ => none)

/-- The drop-index entries that survive the suppression check at
src/migu.go line 176: an entry is emitted only when its first participating
column is not in the dropped-column set. -/
def survivingDropIndexes (droppedColumn : List String) (dropM : List (String × index)) :
    List (String × index) :=
  dropM.filter (fun p => !droppedColumn.contains (p.snd.Columns.getD 0 ""))

/-- The DROP INDEX emission loop (src/migu.go lines 173-179). -/
def dropIndexStmts (d : Dialect) (tableName : String) (droppedColumn : List String)
    (dropM : List (String × index)) : List String :=
  (survivingDropIndexes droppedColumn dropM).map
    (fun p => "DROP INDEX " ++ d.quote p.fst ++ " ON " ++ tableName)

/-- The CREATE INDEX emission loop (src/migu.go lines 180-190). -/
def createIndexStmts (d : Dialect) (tableName : String)
    (addM : List (String × index)) : List String :=
  addM.map (fun p =>
    let cols := String.intercalate "," (p.snd.Columns.map d.quote)
    if p.snd.Unique then
      "CREATE UNIQUE INDEX " ++ d.quote p.fst ++ " ON " ++ tableName ++ " (" ++ cols ++ ")"
    else
      "CREATE INDEX " ++ d.quote p.fst ++ " ON " ++ tableName ++ " (" ++ cols ++ ")")

/-- The mutable state of `Diff`'s per-table loop (src/migu.go lines
121-122 and 110): the accumulated statement list, the `oldFields` slice
(declared OUTSIDE the loop at line 121 and never reset), the global
`droppedColumn` set (line 122) and the remaining live-catalog map. -/
structure diffState where
  migrations : List String
  oldFields : List field
  droppedColumn : List String
  tableMap : List (String × List field)
  deriving Repr, DecidableEq

/-- One iteration of the loop at src/migu.go lines 123-193 for desired
table `name`.  When the table is live, its projected columns are appended
to the accumulated `oldFields`, the field-level differ runs on the whole
accumulated list, ALTER statements are emitted, the dropped columns are
registered, and the index differ runs; when it is not live, one CREATE
TABLE statement is emitted and the index differ still runs on the
accumulated `oldFields`.  Finally the table is deleted from the live map. -/
def diffStep (d : Dialect) (st : diffState) (name : String) (tbl : table) : diffState :=
  let tableName := d.quote name
  match assocGet st.tableMap name with
  | some columns =>
      let oldFields := st.oldFields ++ columns
      let fields := makeAlterTableFields oldFields tbl.fields
      let migrations := fields.foldl (fun ms m => ms ++ alterStatement d tableName m) st.migrations
      let droppedColumn := st.droppedColumn ++ droppedOf fields
      let dropM := (makeIndexMap oldFields tbl.fields).snd
      let addM := (makeIndexMap oldFields tbl.fields).fst
      let migrations := migrations ++ dropIndexStmts d tableName droppedColumn dropM
      let migrations := migrations ++ createIndexStmts d tableName addM
      { migrations := migrations, oldFields := oldFields,
        droppedColumn := droppedColumn, tableMap := assocDelete st.tableMap name }
  | none =>
      let columns := tbl.fields.map (columnSQL d)
      let query := "CREATE TABLE " ++ tableName ++ " (\n  " ++
        String.intercalate ",\n  " columns ++ "\n)"
      let query := if tbl.option != "" then query ++ " " ++ tbl.option else query
      let migrations := st.migrations ++ [query]
      let dropM := (makeIndexMap st.oldFields tbl.fields).snd
      let addM := (makeIndexMap st.oldFields tbl.fields).fst
      let migrations := migrations ++ dropIndexStmts d tableName st.droppedColumn dropM
      let migrations := migrations ++ createIndexStmts d tableName addM
      { migrations := migrations, oldFields := st.oldFields,
        droppedColumn := st.droppedColumn, tableMap := assocDelete st.tableMap name }

/-- The per-table loop of `Diff`, in the (sorted) order of desired table
names. -/
def diffLoop (d : Dialect) : List (String × table) → diffState → diffState
  | [], st => st
  | (name, tbl) :: rest, st => diffLoop d rest (diffStep d st name tbl)

/-- Ascending insertion of a string into a sorted list, comparing with the
total order on strings; models one step of `sort.Strings`. -/
def insertSorted (s : String) : List String → List String
  | [] => [s]
  | t :: rest => if compare s t == Ordering.gt then t :: insertSorted s rest else s :: t :: rest

/-- `sort.Strings` on the desired table names (src/migu.go lines 114-118).
The desired-name keys are unique (they come from a Go map), so any
ascending sort yields the same list. -/
def sortStrings (l : List String) : List String :=
  l.foldr insertSorted []

/-- `Diff` (src/migu.go lines 80-198), from the desired model and the
projected live catalog: iterate the desired tables in sorted name order
through `diffStep`, then emit one DROP TABLE for every live table never
referenced by the desired model (the Go code ranges over the remaining map
in unspecified order; the model keeps the remaining association-list
order). -/
def Diff (d : Dialect) (structMap : List (String × table))
    (tableMap : List (String × List field)) : List String :=
  let names := sortStrings (structMap.map Prod.fst)
  let ordered := names.filterMap (fun n => (assocGet structMap n).map (fun t => (n, t)))
  let st := diffLoop d ordered
    { migrations := [], oldFields := [], droppedColumn := [], tableMap := tableMap }
  st.migrations ++ st.tableMap.map (fun p => "DROP TABLE " ++ d.quote p.fst)

/-- The statement-execution loop of `Sync` (src/migu.go lines 70-75):
execute each statement in order inside the transaction; the first failure
aborts.  `fails` says which statements the database rejects (the executor is
external); `applied` is what the transaction has executed so far. -/
def txLoop (fails : String → Bool) (applied : List String) : List String → Except String (List String)
  | [] => Except.ok applied
  | s :: rest => if fails s then Except.error s else txLoop fails (applied ++ [s]) rest

/-- `Sync` (src/migu.go lines 61-77).  Modelled from the spec for the
transaction semantics (the `*sql.Tx` executor is external): Commit retains
everything executed, Rollback retains nothing.  The result is the list of
statements left applied, paired with the error returned to the caller, if
any. -/
def Sync (fails : String → Bool) (d : Dialect) (structMap : List (String × table))
    (tableMap : List (String × List field)) : List String × Option String :=
  match txLoop fails [] (Diff d structMap tableMap) with
  | Except.ok applied => (applied, none)
  | Except.error e => ([], some e)

/-! Concrete fields and tables used by the scenario theorems.  `baseField`
carries the defaults `newField` (src/migu.go lines 224-246) gives a parsed
field: size 255 (`defaultVarcharSize`), everything else empty or false. -/

def baseField : field :=
  { name := "", type := "", column := "", comment := "", rawIndexes := [],
    unique := false, primaryKey := false, autoIncrement := false, ignore := false,
    default := "", size := 255 }

/-- The live `age int NULL` column of scenario 2, projected: the catalog
projection picks the first member `*int` of the nullable-int class
(`GoFieldTypes`, src/migu.go lines 830-840) and `newField` snake-cases the
regenerated name `Age` back to column `age`. -/
def fieldAge : field := { baseField with name := "Age", type := "*int", column := "age" }

/-- The desired `email string unique` field of scenario 2. -/
def fieldEmail : field :=
  { baseField with name := "Email", type := "string", column := "email", unique := true }

def userTable : table := { fields := [fieldEmail], option := "" }

/-- Desired field `x int` of table `a`; also its own live projection (the
catalog projection of a NOT NULL int column is the class head `int`). -/
def fieldX : field := { baseField with name := "X", type := "int", column := "x" }

/-- Desired field `y int` of table `b`; also its own live projection. -/
def fieldY : field := { baseField with name := "Y", type := "int", column := "y" }

def tableA : table := { fields := [fieldX], option := "" }

def tableB : table := { fields := [fieldY], option := "" }

/-- A desired model of two tables `a{x}` and `b{y}`. -/
def desiredAB : List (String × table) := [("a", tableA), ("b", tableB)]

/-- The projected live catalog exactly matching `desiredAB`. -/
def liveAB : List (String × List field) := [("a", [fieldX]), ("b", [fieldY])]

/-- The initial loop state of a `Diff` run over `liveAB`. -/
def diffInitAB : diffState :=
  { migrations := [], oldFields := [], droppedColumn := [], tableMap := liveAB }

/-- Claim C1 (code bug).  The desired model `desiredAB` and the live catalog
`liveAB` match exactly — same two tables, each live column projecting to a
FieldSpec equal to the desired one, no indexes anywhere — yet `Diff` is not
empty: because `oldFields` (src/migu.go line 121) is declared outside the
per-table loop and never reset, table `a`'s live column `x` is still in the
list when table `b` is diffed, has no counterpart among `b`'s desired
fields, and is classified as Dropped, producing a spurious
`ALTER TABLE b DROP x`.  (On a single matching table the result is empty;
the claim's "any number of tables" fails from two tables on.) -/
theorem c1_diff_not_idempotent_across_tables :
    Diff MySQL desiredAB liveAB = ["ALTER TABLE `b` DROP `x`"] := by decide

/-- Claim C2 (code bug).  In the `desiredAB`/`liveAB` run, the old-fields
list handed to the field-level differ for table `b` is the accumulated
state `oldFields` plus `b`'s projected columns: it maps to columns
`["x", "y"]`, although live table `b` projects to `[fieldY]` alone — the
column `x` of table `a` leaks in, and the differ duly classifies it as a
Dropped field of table `b`. -/
theorem c2_differ_input_accumulates_across_tables :
    ((diffStep MySQL diffInitAB "a" tableA).oldFields ++ [fieldY]).map field.column
      = ["x", "y"] ∧
    assocGet (diffStep MySQL diffInitAB "a" tableA).tableMap "b" = some [fieldY] ∧
    makeAlterTableFields ((diffStep MySQL diffInitAB "a" tableA).oldFields ++ [fieldY])
      tableB.fields = [⟨some fieldX, none⟩] := by decide

/-- Claim C3 (code bug).  For the added field `email` of scenario 2, the
emitted statement is `ALTER TABLE `user` ADD `email`` — only the quoted
column name (src/migu.go line 142 passes `d.Quote(f.new.Column)`, not
`columnSQL(d, f.new)`) — whereas the full rendered column definition is
``email` VARCHAR(255) NOT NULL`; the two differ. -/
theorem c3_added_statement_lacks_column_definition :
    (Diff MySQL [("user", userTable)] [("user", [fieldAge])]).get? 0
      = some "ALTER TABLE `user` ADD `email`" ∧
    columnSQL MySQL fieldEmail = "`email` VARCHAR(255) NOT NULL" ∧
    "ALTER TABLE `user` ADD `email`"
      ≠ "ALTER TABLE `user` ADD " ++ columnSQL MySQL fieldEmail := by decide

/-- Claim C4, counterexample.  In scenario 2 the statement at position 0 is
the ADD and the DROP only comes second — the claimed order (`DROP age`
first, then `ADD email`) does not hold, and the ADD statement carries no
column definition. -/
theorem c4_claimed_order_false :
    (Diff MySQL [("user", userTable)] [("user", [fieldAge])]).get? 0
      = some "ALTER TABLE `user` ADD `email`" ∧
    (Diff MySQL [("user", userTable)] [("user", [fieldAge])]).get? 1
      = some "ALTER TABLE `user` DROP `age`" := by decide

/-- Claim C4, as amended.  Scenario 2 yields exactly three statements:
`ALTER TABLE user ADD email` (column name only — the Added-rendering bug of
C3), then `ALTER TABLE user DROP age`, then
`CREATE UNIQUE INDEX email ON user (email)`, in that order: new-field-driven
changes precede drops (§4.4 ordering), and index creation comes last. -/
theorem c4_scenario2_statements :
    Diff MySQL [("user", userTable)] [("user", [fieldAge])]
      = ["ALTER TABLE `user` ADD `email`",
         "ALTER TABLE `user` DROP `age`",
         "CREATE UNIQUE INDEX `email` ON `user` (`email`)"] := by decide

/-- Claim C6.  `IsDifferent` on two non-nil fields is exactly the
disjunction of the seven compared facets, and two fields that differ only
in `unique` and `rawIndexes` are never reported as different. -/
theorem c6_isDifferent_characterisation (f g : field) (u : Bool) (r : List String) :
    (IsDifferent (some f) (some g) = true ↔
      isSameType f.type g.type = false ∨ f.default ≠ g.default ∨ f.size ≠ g.size ∨
      f.column ≠ g.column ∨ f.comment ≠ g.comment ∨ f.autoIncrement ≠ g.autoIncrement ∨
      f.primaryKey ≠ g.primaryKey) ∧
    IsDifferent (some { f with unique := u, rawIndexes := r }) (some f) = false := by
  constructor
  · simp only [IsDifferent, Bool.or_eq_true, Bool.not_eq_true', bne_iff_ne, ne_eq]
    tauto
  · simp [IsDifferent, isSameType]

theorem inStrings_iff (l : List String) (s : String) : inStrings l s = true ↔ s ∈ l := by
  simp [inStrings]

theorem assocGet_mem {α : Type} (m : List (String × α)) (k : String) (v : α)
    (h : assocGet m k = some v) : (k, v) ∈ m := by
  induction m with
  | nil => simp [assocGet] at h
  | cons p rest ih =>
    obtain ⟨pk, pv⟩ := p
    rw [assocGet] at h
    by_cases hk : (pk == k) = true
    · simp only [hk, if_pos] at h
      have hfst : pk = k := eq_of_beq hk
      have hsnd : pv = v := by injection h
      rw [← hfst, ← hsnd]
      exact List.mem_cons_self _ _
    · simp only [Bool.not_eq_true] at hk
      simp only [hk, Bool.false_eq_true, if_false] at h
      exact List.mem_cons_of_mem _ (ih h)

/-- Every entry of the registry maps a token to a registered class
containing it. -/
theorem sameTypeMap_entries :
    ∀ p ∈ sameTypeMap, p.snd ∈ sameTypeClasses ∧ p.fst ∈ p.snd := by decide

/-- Every token of every registered class looks up to exactly that class
(the tokens of the registry are pairwise distinct). -/
theorem sameTypeMap_lookup :
    ∀ c ∈ sameTypeClasses, ∀ a ∈ c, assocGet sameTypeMap a = some c := by decide

theorem isSameType_iff (x y : String) :
    isSameType x y = true ↔ x = y ∨ ∃ c, c ∈ sameTypeClasses ∧ x ∈ c ∧ y ∈ c := by
  unfold isSameType
  constructor
  · intro h
    rcases Bool.or_eq_true_iff.mp h with h1 | h2
    · exact Or.inl (eq_of_beq h1)
    · cases hg : assocGet sameTypeMap x with
      | none =>
        rw [hg] at h2
        simp [inStrings] at h2
      | some v =>
        rw [hg] at h2
        obtain ⟨hvc, hxv⟩ := sameTypeMap_entries (x, v) (assocGet_mem _ _ _ hg)
        exact Or.inr ⟨v, hvc, hxv, (inStrings_iff _ _).mp h2⟩
  · intro h
    rcases h with rfl | ⟨c, hc, hx, hy⟩
    · simp
    · rw [sameTypeMap_lookup c hc x hx]
      simp only [Option.getD_some]
      exact Bool.or_eq_true_iff.mpr (Or.inr ((inStrings_iff _ _).mpr hy))

/-- Claim C7.  `isSameType` is exactly equality-or-same-registered-class,
it is symmetric, and a token in no registered class is equivalent only to
itself. -/
theorem c7_type_equivalence_registry (a b : String) :
    (isSameType a b = true ↔ a = b ∨ ∃ c, c ∈ sameTypeClasses ∧ a ∈ c ∧ b ∈ c) ∧
    isSameType a b = isSameType b a ∧
    ((∀ c, c ∈ sameTypeClasses → a ∉ c) → (isSameType a b = true ↔ b = a)) := by
  refine ⟨isSameType_iff a b, ?_, ?_⟩
  · have hiff : isSameType a b = true ↔ isSameType b a = true := by
      rw [isSameType_iff a b, isSameType_iff b a]
      constructor
      · rintro (rfl | ⟨c, hc, h1, h2⟩)
        · exact Or.inl rfl
        · exact Or.inr ⟨c, hc, h2, h1⟩
      · rintro (rfl | ⟨c, hc, h1, h2⟩)
        · exact Or.inl rfl
        · exact Or.inr ⟨c, hc, h2, h1⟩
    exact Bool.coe_iff_coe.mp hiff
  · intro hnone
    rw [isSameType_iff a b]
    constructor
    · rintro (rfl | ⟨c, hc, hac, _⟩)
      · rfl
      · exact absurd hac (hnone c hc)
    · intro h
      exact Or.inl h.symm

/-- Claim C7, witness: `time.Time` is in no registered class, so it is
equivalent only to itself; in particular it is not equivalent to `int`. -/
theorem c7_type_equivalence_registry_witness : isSameType "time.Time" "int" = false := by
  have h := (c7_type_equivalence_registry "time.Time" "int").2.2 (by decide)
  by_cases hb : isSameType "time.Time" "int" = true
  · exact absurd (h.mp hb) (by decide)
  · simpa using hb

theorem foldl_if_append {α β : Type} (p : α → Bool) (v : α → β) (l : List α) (init : List β) :
    l.foldl (fun acc x => if p x then acc ++ [v x] else acc) init
      = init ++ l.filterMap (fun x => if p x then some (v x) else none) := by
  induction l generalizing init with
  | nil => simp
  | cons x xs ih =>
    by_cases h : p x = true
    · simp [List.foldl_cons, h, ih, List.filterMap_cons]
    · simp only [Bool.not_eq_true] at h
      simp [List.foldl_cons, h, ih, List.filterMap_cons]

theorem makeAlterTableFields_eq (oldFields newFields : List field) :
    makeAlterTableFields oldFields newFields =
      newFields.filterMap (fun f =>
        if IsDifferent (assocGet (fieldTable oldFields) f.column) (some f) then
          some ⟨assocGet (fieldTable oldFields) f.column, some f⟩ else none)
      ++ oldFields.filterMap (fun f =>
        if (assocGet (fieldTable newFields) f.column).isNone then
          some ⟨some f, none⟩ else none) := by
  simp only [makeAlterTableFields]
  rw [foldl_if_append (fun f => (assocGet (fieldTable newFields) f.column).isNone)
        (fun f => modifiedField.mk (some f) none),
      foldl_if_append (fun f => IsDifferent (assocGet (fieldTable oldFields) f.column) (some f))
        (fun f => modifiedField.mk (assocGet (fieldTable oldFields) f.column) (some f))]
  simp

theorem filterMap_extract_sublist {α β : Type} (g : α → Option β) (h : β → Option α)
    (hg : ∀ x y, g x = some y → h y = some x) :
    ∀ l : List α, List.Sublist ((l.filterMap g).filterMap h) l := by
  intro l
  induction l with
  | nil => simp
  | cons x xs ih =>
    cases hgx : g x with
    | none =>
      simp only [List.filterMap_cons, hgx]
      exact List.Sublist.cons _ ih
    | some y =>
      simp only [List.filterMap_cons, hgx, hg x y hgx]
      exact List.Sublist.cons₂ _ ih

theorem foldl_append_init {α β : Type} (g : α → List β) (l : List α) (init : List β) :
    l.foldl (fun ms m => ms ++ g m) init = init ++ l.foldl (fun ms m => ms ++ g m) [] := by
  induction l generalizing init with
  | nil => simp
  | cons x xs ih =>
    simp only [List.foldl_cons]
    rw [ih (init ++ g x), ih ([] ++ g x)]
    simp [List.append_assoc]

/-- Claim C5.  One table's ALTER plan splits as `am ++ dr`, where every
entry of `am` is Added or Modified and `am`'s new fields form a sublist of
the desired fields (so they appear in desired declaration order), every
entry of `dr` is Dropped and `dr`'s old fields form a sublist of the live
fields (old declaration order), and the emitted statement list splits the
same way: statements for `am` first, then statements for `dr`. -/
theorem c5_alter_plan_order (d : Dialect) (tableName : String)
    (oldFields newFields : List field) :
    ∃ am dr,
      makeAlterTableFields oldFields newFields = am ++ dr ∧
      (∀ m ∈ am, (m.IsAdded || m.IsModified) = true) ∧
      (∀ m ∈ dr, m.IsDropped = true) ∧
      List.Sublist (am.filterMap modifiedField.new) newFields ∧
      List.Sublist (dr.filterMap modifiedField.old) oldFields ∧
      (makeAlterTableFields oldFields newFields).foldl
          (fun ms m => ms ++ alterStatement d tableName m) []
        = am.foldl (fun ms m => ms ++ alterStatement d tableName m) []
          ++ dr.foldl (fun ms m => ms ++ alterStatement d tableName m) [] := by
  refine ⟨newFields.filterMap (fun f =>
      if IsDifferent (assocGet (fieldTable oldFields) f.column) (some f) then
        some ⟨assocGet (fieldTable oldFields) f.column, some f⟩ else none),
    oldFields.filterMap (fun f =>
      if (assocGet (fieldTable newFields) f.column).isNone then
        some ⟨some f, none⟩ else none),
    makeAlterTableFields_eq oldFields newFields, ?_, ?_, ?_, ?_, ?_⟩
  · intro m hm
    obtain ⟨f, _, hf⟩ := List.mem_filterMap.mp hm
    by_cases hc : IsDifferent (assocGet (fieldTable oldFields) f.column) (some f) = true
    · rw [if_pos hc] at hf
      obtain rfl : (⟨assocGet (fieldTable oldFields) f.column, some f⟩ : modifiedField) = m :=
        by injection hf
      cases assocGet (fieldTable oldFields) f.column with
      | none => simp [modifiedField.IsAdded]
      | some o => simp [modifiedField.IsModified]
    · rw [if_neg hc] at hf
      exact absurd hf (by simp)
  · intro m hm
    obtain ⟨f, _, hf⟩ := List.mem_filterMap.mp hm
    by_cases hc : (assocGet (fieldTable newFields) f.column).isNone = true
    · rw [if_pos hc] at hf
      obtain rfl : (⟨some f, none⟩ : modifiedField) = m := by injection hf
      simp [modifiedField.IsDropped]
    · rw [if_neg hc] at hf
      exact absurd hf (by simp)
  · refine filterMap_extract_sublist _ _ ?_ newFields
    intro x y hxy
    by_cases hc : IsDifferent (assocGet (fieldTable oldFields) x.column) (some x) = true
    · rw [if_pos hc] at hxy
      obtain rfl : (⟨assocGet (fieldTable oldFields) x.column, some x⟩ : modifiedField) = y :=
        by injection hxy
      rfl
    · rw [if_neg hc] at hxy
      exact absurd hxy (by simp)
  · refine filterMap_extract_sublist _ _ ?_ oldFields
    intro x y hxy
    by_cases hc : (assocGet (fieldTable newFields) x.column).isNone = true
    · rw [if_pos hc] at hxy
      obtain rfl : (⟨some x, none⟩ : modifiedField) = y := by injection hxy
      rfl
    · rw [if_neg hc] at hxy
      exact absurd hxy (by simp)
  · rw [makeAlterTableFields_eq oldFields newFields, List.foldl_append,
      foldl_append_init (alterStatement d tableName)]

theorem txLoop_spec (fails : String → Bool) :
    ∀ sqls applied : List String,
      (txLoop fails applied sqls = Except.ok (applied ++ sqls) ∧ ∀ s ∈ sqls, fails s = false) ∨
      ∃ e, e ∈ sqls ∧ fails e = true ∧ txLoop fails applied sqls = Except.error e := by
  intro sqls
  induction sqls with
  | nil =>
    intro applied
    left
    exact ⟨by simp [txLoop], by simp⟩
  | cons s rest ih =>
    intro applied
    cases hs : fails s with
    | true =>
      right
      exact ⟨s, List.mem_cons_self _ _, hs, by simp [txLoop, hs]⟩
    | false =>
      rcases ih (applied ++ [s]) with ⟨hok, hall⟩ | ⟨e, he, hf, herr⟩
      · left
        constructor
        · simp [txLoop, hs, hok]
        · intro t ht
          rcases List.mem_cons.mp ht with rfl | ht'
          · exact hs
          · exact hall t ht'
      · right
        exact ⟨e, List.mem_cons_of_mem _ he, hf, by simp [txLoop, hs, herr]⟩

/-- Claim C8.  A `Sync` run either executes every statement `Diff` returned,
in `Diff`'s order, and commits them all (none of them fails), or some
statement of `Diff`'s list fails, the error is returned, and nothing at all
remains applied — the transaction was rolled back.  (The transaction-scoped
executor itself is external and modelled from the spec.) -/
theorem c8_sync_transactional (fails : String → Bool) (d : Dialect)
    (sm : List (String × table)) (tm : List (String × List field)) :
    (Sync fails d sm tm = (Diff d sm tm, none) ∧ ∀ s ∈ Diff d sm tm, fails s = false) ∨
    ∃ e, e ∈ Diff d sm tm ∧ fails e = true ∧ Sync fails d sm tm = ([], some e) := by
  rcases txLoop_spec fails (Diff d sm tm) [] with ⟨hok, hall⟩ | ⟨e, he, hf, herr⟩
  · left
    exact ⟨by simp [Sync, hok], hall⟩
  · right
    exact ⟨e, he, hf, by simp [Sync, herr]⟩

theorem diffStep_droppedColumn_live (d : Dialect) (st : diffState) (name : String)
    (tbl : table) (cols : List field) (hlive : assocGet st.tableMap name = some cols) :
    (diffStep d st name tbl).droppedColumn
      = st.droppedColumn ++ droppedOf (makeAlterTableFields (st.oldFields ++ cols) tbl.fields) := by
  simp [diffStep, hlive]

theorem diffStep_droppedColumn_mono (d : Dialect) (st : diffState) (name : String)
    (tbl : table) (c : String) (hc : c ∈ st.droppedColumn) :
    c ∈ (diffStep d st name tbl).droppedColumn := by
  unfold diffStep
  cases hg : assocGet st.tableMap name with
  | some cols =>
    simp only [hg]
    exact List.mem_append_left _ hc
  | none =>
    simp only [hg]
    exact hc

theorem diffLoop_droppedColumn_mono (d : Dialect) :
    ∀ (l : List (String × table)) (st : diffState) (c : String),
      c ∈ st.droppedColumn → c ∈ (diffLoop d l st).droppedColumn := by
  intro l
  induction l with
  | nil =>
    intro st c hc
    exact hc
  | cons p rest ih =>
    intro st c hc
    obtain ⟨name, tbl⟩ := p
    exact ih _ c (diffStep_droppedColumn_mono d st name tbl c hc)

theorem droppedOf_mem (fields : List modifiedField) (o : field)
    (h : modifiedField.mk (some o) none ∈ fields) : o.column ∈ droppedOf fields := by
  unfold droppedOf
  exact List.mem_filterMap.mpr ⟨_, h, rfl⟩

theorem mem_survivingDropIndexes (dc : List String) (m : List (String × index))
    (p : String × index) (hp : p ∈ survivingDropIndexes dc m) (c : String) (hc : c ∈ dc) :
    p.snd.Columns.getD 0 "" ≠ c := by
  have hpred := (List.mem_filter.mp hp).2
  intro heq
  rw [heq] at hpred
  simp at hpred
  exact hpred hc

/-- Claim C9.  If a field `o` is classified as Dropped in a table's pass
(the pass's dropped columns are registered in `droppedColumn` before the
index-drop emission runs), then no drop-index entry whose first
participating column is `o`'s column survives the suppression filter that
`diffStep` applies to that pass's computed drop-index map — so no such
`DROP INDEX` statement is emitted. -/
theorem c9_same_pass_drop_suppression (d : Dialect) (st : diffState) (name : String)
    (tbl : table) (cols : List field) (o : field)
    (hlive : assocGet st.tableMap name = some cols)
    (hdrop : modifiedField.mk (some o) none
      ∈ makeAlterTableFields (st.oldFields ++ cols) tbl.fields) :
    (survivingDropIndexes (diffStep d st name tbl).droppedColumn
        (makeIndexMap (st.oldFields ++ cols) tbl.fields).snd).all
      (fun p => p.snd.Columns.getD 0 "" != o.column) = true := by
  rw [List.all_eq_true]
  intro p hp
  rw [bne_iff_ne]
  refine mem_survivingDropIndexes _ _ p hp o.column ?_
  rw [diffStep_droppedColumn_live d st name tbl cols hlive]
  exact List.mem_append_right _ (droppedOf_mem _ o hdrop)

/-- Live column `x` of table `t`, carrying index `i`; dropped by the
desired model below. -/
def fieldWX : field :=
  { baseField with name := "X", type := "int", column := "x", rawIndexes := ["i"] }

/-- Live column `z` of table `t`, carrying index `j`. -/
def fieldWZOld : field :=
  { baseField with name := "Z", type := "int", column := "z", rawIndexes := ["j"] }

/-- Desired column `z` of table `t`, with no index: index `j` gets a
computed drop entry, which survives (its first column `z` is not dropped). -/
def fieldWZNew : field := { baseField with name := "Z", type := "int", column := "z" }

def tableW : table := { fields := [fieldWZNew], option := "" }

def diffInitW : diffState :=
  { migrations := [], oldFields := [], droppedColumn := [],
    tableMap := [("t", [fieldWX, fieldWZOld])] }

/-- Claim C9, witness: in the pass for table `t` the field `x` is dropped,
and every surviving drop-index entry (here the one for `j`, first column
`z`) has a first column different from `x`. -/
theorem c9_same_pass_drop_suppression_witness :
    (survivingDropIndexes (diffStep MySQL diffInitW "t" tableW).droppedColumn
        (makeIndexMap (diffInitW.oldFields ++ [fieldWX, fieldWZOld]) tableW.fields).snd).all
      (fun p => p.snd.Columns.getD 0 "" != fieldWX.column) = true :=
  c9_same_pass_drop_suppression MySQL diffInitW "t" tableW [fieldWX, fieldWZOld] fieldWX
    (by decide) (by decide)

/-- Claim C10.  The dropped-column set is global to one `Diff` run: once a
pass drops field `o` (from any table), `o`'s column stays in
`droppedColumn` through every later pass (it is only ever appended to),
and in any later table's pass every drop-index entry whose first
participating column bears that name fails the suppression filter — even
though the dropped column and the index belong to different tables. -/
theorem c10_global_dropped_column_suppression (d : Dialect) (st : diffState)
    (nameA : String) (tblA : table) (colsA : List field) (o : field)
    (mid : List (String × table)) (nameB : String) (tblB : table)
    (dropM : List (String × index))
    (hliveA : assocGet st.tableMap nameA = some colsA)
    (hdrop : modifiedField.mk (some o) none
      ∈ makeAlterTableFields (st.oldFields ++ colsA) tblA.fields) :
    o.column ∈ (diffLoop d mid (diffStep d st nameA tblA)).droppedColumn ∧
    (survivingDropIndexes
        (diffStep d (diffLoop d mid (diffStep d st nameA tblA)) nameB tblB).droppedColumn
        dropM).all
      (fun p => p.snd.Columns.getD 0 "" != o.column) = true := by
  have h1 : o.column ∈ (diffStep d st nameA tblA).droppedColumn := by
    rw [diffStep_droppedColumn_live d st nameA tblA colsA hliveA]
    exact List.mem_append_right _ (droppedOf_mem _ o hdrop)
  have h2 := diffLoop_droppedColumn_mono d mid (diffStep d st nameA tblA) o.column h1
  refine ⟨h2, ?_⟩
  rw [List.all_eq_true]
  intro p hp
  rw [bne_iff_ne]
  exact mem_survivingDropIndexes _ _ p hp o.column
    (diffStep_droppedColumn_mono d _ nameB tblB o.column h2)

/-- Live column `x` of table `b`, carrying index `i`; the desired model of
`b` keeps the column but removes the index, so pass `b` computes a drop
entry for `i` with first column `x`. -/
def fieldBXLive : field :=
  { baseField with name := "X", type := "int", column := "x", rawIndexes := ["i"] }

/-- Desired field `z` of table `a`: table `a` drops its live column `x`. -/
def fieldZ : field := { baseField with name := "Z", type := "int", column := "z" }

def tableA10 : table := { fields := [fieldZ], option := "" }

def tableB10 : table := { fields := [fieldX], option := "" }

/-- The initial state of the cross-table suppression run: live tables
`a{x}` and `b{x indexed by i}`. -/
def diffInit10 : diffState :=
  { migrations := [], oldFields := [], droppedColumn := [],
    tableMap := [("a", [fieldX]), ("b", [fieldBXLive])] }

/-- The drop-index map pass `b` actually computes in that run: the entry
for index `i` with first participating column `x`. -/
def dropM10 : List (String × index) :=
  (makeIndexMap ((diffStep MySQL diffInit10 "a" tableA10).oldFields ++ [fieldBXLive])
    tableB10.fields).snd

/-- The drop-index map of pass `b` is not empty: a drop of index `i` with
first column `x` really is computed, so its suppression below is not
vacuous. -/
theorem dropM10_eq : dropM10 = [("i", ⟨["x"], false⟩)] := by decide

/-- Claim C10, witness: table `a` drops its column `x`; in the later pass
for table `b`, the computed drop of index `i` (first column `x`, a column
of table `b`) fails the suppression filter because of table `a`'s dropped
column of the same name. -/
theorem c10_global_dropped_column_suppression_witness :
    "x" ∈ (diffLoop MySQL [] (diffStep MySQL diffInit10 "a" tableA10)).droppedColumn ∧
    (survivingDropIndexes
        (diffStep MySQL (diffLoop MySQL [] (diffStep MySQL diffInit10 "a" tableA10))
          "b" tableB10).droppedColumn
        dropM10).all
      (fun p => p.snd.Columns.getD 0 "" != "x") = true :=
  c10_global_dropped_column_suppression MySQL diffInit10 "a" tableA10 [fieldX] fieldX
    [] "b" tableB10 dropM10 (by decide) (by decide)

/-- End-to-end view of the same run: the `DROP INDEX` for `i` on `b` is
absent from the output (only table `a`'s ADD and DROP appear). -/
theorem diff_cross_table_suppression_run :
    Diff MySQL [("a", tableA10), ("b", tableB10)] [("a", [fieldX]), ("b", [fieldBXLive])]
      = ["ALTER TABLE `a` ADD `z`", "ALTER TABLE `a` DROP `x`"] := by decide

/-- The same desired table `b` against the same live `b` alone — with no
earlier table dropping a column named `x` — does emit the `DROP INDEX`. -/
theorem diff_single_table_emits_drop_index :
    Diff MySQL [("b", tableB10)] [("b", [fieldBXLive])] = ["DROP INDEX `i` ON `b`"] := by decide
